import Mathlib

/-!
Shallow embedding of the rule-based strategy backtester
(`strategy_backtester.py`) and of the theory tester
(`financial_theory_tester.py`).

Prices and money amounts are modelled as rationals.  The IEEE-float
special cases the Python code relies on are made explicit:
NaN values (insufficient rolling-window history, 0/0) become `none` /
guarded branches, every Python comparison against NaN evaluates to
`false`, and the `x/0 = +inf` saturation in the RSI formula becomes the
explicit `100` branch.  Pandas label slicing `df.loc[:index]` becomes
`List.take (i+1)` on the positionally indexed close-price list, and
trade dates become bar indices.
-/

/-- Python `int()` applied to a rational: truncation toward zero
(`shares = int(cash / current_price)` in `backtest_strategy`). -/
def truncQ (q : ℚ) : ℤ := if 0 ≤ q then ⌊q⌋ else ⌈q⌉

/-- Buy-condition kinds produced by `parse_strategy`
(`{'type': 'dip'|'price_below'|'rsi_below', ...}`). -/
inductive BuyCond
  | dip (percent : ℚ)
  | price_below (price : ℚ)
  | rsi_below (value : ℚ)
deriving DecidableEq, Repr

/-- Sell-condition kinds produced by `parse_strategy`
(`{'type': 'rise'|'price_above'|'rsi_above', ...}`). -/
inductive SellCond
  | rise (percent : ℚ)
  | price_above (price : ℚ)
  | rsi_above (value : ℚ)
deriving DecidableEq, Repr

/-- The `strategy` dict built by `parse_strategy`. -/
structure StrategySpec where
  buy_conditions : List BuyCond
  sell_conditions : List SellCond
  initial_capital : ℚ
  description : String
deriving DecidableEq, Repr

/-- Per-bar gain series used by `calculate_rsi`:
`delta = prices.diff()`, `gain = delta.where(delta > 0, 0)`.
The first delta is NaN and `NaN > 0` is `False`, so pandas replaces it
with `0`; entry `i ≥ 1` is `max (p i - p (i-1)) 0`. -/
def gains (prices : List ℚ) : List ℚ :=
  match prices with
  | [] => []
  | _ :: rest => 0 :: ((prices.zip rest).map fun pq => max (pq.2 - pq.1) 0)

/-- Per-bar loss series used by `calculate_rsi`:
`loss = (-delta).where(delta < 0, 0)` with the same NaN-to-0 head. -/
def losses (prices : List ℚ) : List ℚ :=
  match prices with
  | [] => []
  | _ :: rest => 0 :: ((prices.zip rest).map fun pq => max (pq.1 - pq.2) 0)

/-- Source `gain.rolling(window=period).mean()` evaluated at index `i`
(only meaningful when `period ≤ i + 1`; the caller guards that). -/
def avgGain (prices : List ℚ) (period i : ℕ) : ℚ :=
  ((((gains prices).drop (i + 1 - period)).take period).sum) / (period : ℚ)

/-- Source `loss.rolling(window=period).mean()` evaluated at index `i`. -/
def avgLoss (prices : List ℚ) (period i : ℕ) : ℚ :=
  ((((losses prices).drop (i + 1 - period)).take period).sum) / (period : ℚ)

/-- Source `calculate_rsi(prices, period)`, index-aligned with `prices`.
`rs = gain/loss; rsi = 100 - 100/(1+rs)` in floats:
* index `< period - 1`: rolling means are NaN, so RSI is NaN (`none`);
* average loss `0`, average gain `0`: `rs = 0/0 = NaN` (`none`);
* average loss `0`, average gain `> 0`: `rs = +inf`, `100/(1+rs) = 0`,
  so RSI is exactly `100`;
* otherwise the rational formula applies. -/
def calculate_rsi (prices : List ℚ) (period : ℕ) : List (Option ℚ) :=
  (List.range prices.length).map fun i =>
    if i + 1 < period then none
    else if avgLoss prices period i = 0 then
      (if avgGain prices period i = 0 then none else some 100)
    else some (100 - 100 / (1 + avgGain prices period i / avgLoss prices period i))

/-- Source `calculate_rsi(df.loc[:index, 'Close']).iloc[-1]` (period 14). -/
def rsiLastVal (hist : List ℚ) : Option ℚ :=
  (calculate_rsi hist 14).getLastD none

/-- Source `df.loc[:index,'Close'].rolling(window=w).max().iloc[-1]` in
`check_buy_conditions`: max of the trailing `w` closes, NaN (`none`)
while fewer than `w` bars exist. -/
def recentHighLast (w : ℕ) (hist : List ℚ) : Option ℚ :=
  if w ≤ hist.length then
    match hist.drop (hist.length - w) with
    | [] => none
    | h :: t => some (t.foldl max h)
  else none

/-- The `reason` strings of `check_buy_conditions` /
`check_sell_conditions`, kept as structured data instead of the
Python `f"..."`-formatted text (the numeric payloads are the values
interpolated into those strings). -/
inductive Reason
  | dropFromHigh (dropPercent : ℚ)
  | priceBelowLimit (price limit : ℚ)
  | rsiBelowLimit (rsi value : ℚ)
  | roseFromEntry (gainPercent : ℚ)
  | priceAboveLimit (price limit : ℚ)
  | rsiAboveLimit (rsi value : ℚ)
deriving DecidableEq, Repr

/-- One iteration of the `for condition in strategy['buy_conditions']`
loop body of `check_buy_conditions`.  NaN indicator values (`none`)
make every comparison false, firing nothing. -/
def evalBuyCond (w : ℕ) (hist : List ℚ) (current : ℚ) : BuyCond → Option Reason
  | BuyCond.dip percent =>
    match recentHighLast w hist with
    | none => none
    | some recent_high =>
      let drop_percent := ((recent_high - current) / recent_high) * 100
      if drop_percent ≥ percent then some (Reason.dropFromHigh drop_percent) else none
  | BuyCond.price_below price =>
    if current < price then some (Reason.priceBelowLimit current price) else none
  | BuyCond.rsi_below value =>
    match rsiLastVal hist with
    | none => none
    | some r => if r < value then some (Reason.rsiBelowLimit r value) else none

/-- Source `check_buy_conditions(df, index, strategy, rolling_window)`:
scans the declared list in order and returns on the first condition
that fires; `(False, None)` becomes `none`. -/
def checkBuyConditions (w : ℕ) (hist : List ℚ) (current : ℚ) :
    List BuyCond → Option Reason
  | [] => none
  | c :: cs =>
    match evalBuyCond w hist current c with
    | some r => some r
    | none => checkBuyConditions w hist current cs

/-- One iteration of the `for condition in strategy['sell_conditions']`
loop body of `check_sell_conditions`. -/
def evalSellCond (hist : List ℚ) (current entry_price : ℚ) : SellCond → Option Reason
  | SellCond.rise percent =>
    let gain_percent := ((current - entry_price) / entry_price) * 100
    if gain_percent ≥ percent then some (Reason.roseFromEntry gain_percent) else none
  | SellCond.price_above price =>
    if current > price then some (Reason.priceAboveLimit current price) else none
  | SellCond.rsi_above value =>
    match rsiLastVal hist with
    | none => none
    | some r => if r > value then some (Reason.rsiAboveLimit r value) else none

/-- Source `check_sell_conditions(df, index, strategy, entry_price)`. -/
def checkSellConditions (hist : List ℚ) (current entry_price : ℚ) :
    List SellCond → Option Reason
  | [] => none
  | c :: cs =>
    match evalSellCond hist current entry_price c with
    | some r => some r
    | none => checkSellConditions hist current entry_price cs

/-- The trade dicts appended to `trades`; `barIndex` stands for the
source's `date` label (the series index is strictly increasing, so
positions and date labels are interchangeable). -/
structure Trade where
  barIndex : ℕ
  type : String
  price : ℚ
  shares : ℤ
  reason : Reason
deriving DecidableEq, Repr

/-- The mutable locals of `backtest_strategy`; `value_history` is the
source's `portfolio_value` list. -/
structure SimState where
  cash : ℚ
  shares : ℤ
  in_position : Bool
  entry_price : ℚ
  trades : List Trade
  value_history : List ℚ
deriving DecidableEq, Repr

/-- Initial locals of `backtest_strategy`. -/
def initState (strat : StrategySpec) : SimState :=
  { cash := strat.initial_capital, shares := 0, in_position := false
    entry_price := 0, trades := [], value_history := [] }

/-- The `if not in_position: ... else: ...` trading part of one loop
iteration of `backtest_strategy`, before the portfolio-value append.
`hist` is `df.loc[:index]`, `current` is `row['Close']`. -/
def tradeStep (strat : StrategySpec) (hist : List ℚ) (i : ℕ) (current : ℚ)
    (s : SimState) : SimState :=
  if s.in_position = false then
    match checkBuyConditions 20 hist current strat.buy_conditions with
    | some reason =>
      let sh : ℤ := truncQ (s.cash / current)
      { cash := s.cash - (sh : ℚ) * current
        shares := sh
        in_position := true
        entry_price := current
        trades := s.trades ++
          [{ barIndex := i, type := "BUY", price := current, shares := sh, reason := reason }]
        value_history := s.value_history }
    | none => s
  else
    match checkSellConditions hist current s.entry_price strat.sell_conditions with
    | some reason =>
      { cash := s.cash + (s.shares : ℚ) * current
        shares := 0
        in_position := false
        entry_price := s.entry_price
        trades := s.trades ++
          [{ barIndex := i, type := "SELL", price := current, shares := s.shares, reason := reason }]
        value_history := s.value_history }
    | none => s

/-- One full iteration of the `for i, (date, row) in
enumerate(df.iterrows())` loop: trade, then
`portfolio_value.append(cash + shares * current_price)`. -/
def stepBar (strat : StrategySpec) (prices : List ℚ) (i : ℕ) (s : SimState) : SimState :=
  let current := prices.getD i 0
  let s2 := tradeStep strat (prices.take (i + 1)) i current s
  { s2 with value_history := s2.value_history ++ [s2.cash + (s2.shares : ℚ) * current] }

/-- State of the `backtest_strategy` loop after processing bars
`0, …, k-1`. -/
def runUpTo (strat : StrategySpec) (prices : List ℚ) (k : ℕ) : SimState :=
  (List.range k).foldl (fun s i => stepBar strat prices i s) (initState strat)

/-- The whole `backtest_strategy` loop over the series. -/
def simulate (strat : StrategySpec) (prices : List ℚ) : SimState :=
  runUpTo strat prices prices.length

/-- Return value of `backtest_strategy`:
`(portfolio_value, trades, final_value, total_return)`. -/
structure BacktestResult where
  value_history : List ℚ
  trades : List Trade
  final_value : ℚ
  total_return : ℚ
deriving DecidableEq, Repr

/-- Source `backtest_strategy(df, strategy)`.  `portfolio_value[-1]` raises on
an empty series in Python; here it is `getLastD 0` and the theorems
assume a non-empty series. -/
def backtest_strategy (prices : List ℚ) (strat : StrategySpec) : BacktestResult :=
  let s := simulate strat prices
  let final_value := s.value_history.getLastD 0
  { value_history := s.value_history
    trades := s.trades
    final_value := final_value
    total_return := ((final_value - strat.initial_capital) / strat.initial_capital) * 100 }

theorem runUpTo_succ (strat : StrategySpec) (prices : List ℚ) (k : ℕ) :
    runUpTo strat prices (k + 1) = stepBar strat prices k (runUpTo strat prices k) := by
  unfold runUpTo
  rw [List.range_succ, List.foldl_append]
  rfl

theorem tradeStep_value_history (strat : StrategySpec) (hist : List ℚ) (i : ℕ)
    (current : ℚ) (s : SimState) :
    (tradeStep strat hist i current s).value_history = s.value_history := by
  unfold tradeStep
  split
  · split <;> rfl
  · split <;> rfl

theorem runUpTo_value_history_length (strat : StrategySpec) (prices : List ℚ) (k : ℕ) :
    (runUpTo strat prices k).value_history.length = k := by
  induction k with
  | zero => rfl
  | succ n ih =>
    rw [runUpTo_succ]
    unfold stepBar
    simp [tradeStep_value_history, ih]

theorem getD_default_irrel (l : List ℚ) (j : ℕ) (h : j < l.length) (d d' : ℚ) :
    l.getD j d = l.getD j d' := by
  rw [List.getD_eq_getElem?_getD, List.getD_eq_getElem?_getD, List.getElem?_eq_getElem h]
  rfl

theorem getLastD_eq_getD : ∀ (a : ℚ) (t : List ℚ) (d : ℚ),
    (a :: t).getLastD d = (a :: t).getD t.length d := by
  intro a t
  induction t generalizing a with
  | nil => intro d; rfl
  | cons b u ih =>
    intro d
    rw [List.getLastD_cons, ih b a]
    simp only [List.length_cons, List.getD_cons_succ]
    exact getD_default_irrel _ _ (by simp) a d

theorem runUpTo_value_history_succ (strat : StrategySpec) (prices : List ℚ) (k : ℕ) :
    (runUpTo strat prices (k + 1)).value_history =
      (runUpTo strat prices k).value_history ++
        [(runUpTo strat prices (k + 1)).cash +
          ((runUpTo strat prices (k + 1)).shares : ℚ) * prices.getD k 0] := by
  rw [runUpTo_succ]
  unfold stepBar
  simp [tradeStep_value_history]

theorem runUpTo_value_history_take (strat : StrategySpec) (prices : List ℚ) :
    ∀ m k, k ≤ m →
      (runUpTo strat prices m).value_history.take k = (runUpTo strat prices k).value_history := by
  intro m
  induction m with
  | zero =>
    intro k hk
    interval_cases k
    rfl
  | succ n ih =>
    intro k hk
    rcases Nat.lt_or_ge k (n + 1) with h | h
    · rw [runUpTo_value_history_succ,
        List.take_append_of_le_length
          (by rw [runUpTo_value_history_length]; omega)]
      exact ih k (by omega)
    · have hk' : k = n + 1 := by omega
      subst hk'
      exact List.take_of_length_le (by rw [runUpTo_value_history_length])

theorem runUpTo_value_history_getD (strat : StrategySpec) (prices : List ℚ)
    (m j : ℕ) (hj : j < m) :
    (runUpTo strat prices m).value_history.getD j 0 =
      (runUpTo strat prices (j + 1)).cash +
        ((runUpTo strat prices (j + 1)).shares : ℚ) * prices.getD j 0 := by
  have hlen : j < (runUpTo strat prices m).value_history.length := by
    rw [runUpTo_value_history_length]; exact hj
  have hsome : (runUpTo strat prices m).value_history[j]? =
      some ((runUpTo strat prices m).value_history.getD j 0) := by
    rw [List.getD_eq_getElem?_getD, List.getElem?_eq_getElem hlen]
    rfl
  have htake : (runUpTo strat prices m).value_history.take (j + 1) =
      (runUpTo strat prices m).value_history.take j ++
        [(runUpTo strat prices m).value_history.getD j 0] := by
    rw [List.take_succ, hsome]
    rfl
  have hpre : (runUpTo strat prices m).value_history.take (j + 1) =
      (runUpTo strat prices (j + 1)).value_history :=
    runUpTo_value_history_take strat prices m (j + 1) (by omega)
  have := htake.symm.trans hpre
  rw [runUpTo_value_history_succ] at this
  have := congrArg (fun l => l.getLastD 0) this
  simpa [List.getLastD_concat] using this

theorem getLastD_eq_getD_of_length (l : List ℚ) (n : ℕ) (h : l.length = n + 1) (d : ℚ) :
    l.getLastD d = l.getD n d := by
  cases l with
  | nil => simp at h
  | cons a t =>
    have ht : t.length = n := by simpa using h
    rw [getLastD_eq_getD a t d, ht]

/-- C1: for a non-empty series, `backtest_strategy` returns one
portfolio value per input bar in bar order (the value at bar `j` is the
post-bar-`j` cash plus shares marked at bar `j`'s close); the final
value is the state after the last bar marked at the last close — in
particular, if the run ends LONG, it equals cash plus shares times the
last close, not a force-close; and the returned total return is
`(final_value - initial_capital) / initial_capital * 100`. -/
theorem C1_backtest_outputs (strat : StrategySpec) (prices : List ℚ)
    (hne : prices ≠ []) :
    (backtest_strategy prices strat).value_history.length = prices.length ∧
    (∀ j, j < prices.length →
      (backtest_strategy prices strat).value_history.getD j 0 =
        (runUpTo strat prices (j + 1)).cash +
          ((runUpTo strat prices (j + 1)).shares : ℚ) * prices.getD j 0) ∧
    ((simulate strat prices).in_position = true →
      (backtest_strategy prices strat).final_value =
        (simulate strat prices).cash +
          ((simulate strat prices).shares : ℚ) * prices.getLastD 0) ∧
    (backtest_strategy prices strat).total_return =
      ((backtest_strategy prices strat).final_value - strat.initial_capital) /
        strat.initial_capital * 100 := by
  obtain ⟨p, ps, rfl⟩ : ∃ p ps, prices = p :: ps := by
    cases prices with
    | nil => exact absurd rfl hne
    | cons p ps => exact ⟨p, ps, rfl⟩
  refine ⟨?_, ?_, ?_, rfl⟩
  · exact runUpTo_value_history_length strat (p :: ps) (ps.length + 1)
  · intro j hj
    exact runUpTo_value_history_getD strat (p :: ps) _ j hj
  · intro _
    have hL : (simulate strat (p :: ps)).value_history.length = ps.length + 1 :=
      runUpTo_value_history_length strat (p :: ps) (ps.length + 1)
    show (simulate strat (p :: ps)).value_history.getLastD 0 = _
    rw [getLastD_eq_getD_of_length _ _ hL 0,
      getLastD_eq_getD_of_length (p :: ps) ps.length rfl 0]
    exact runUpTo_value_history_getD strat (p :: ps) (ps.length + 1) ps.length (by omega)

/-- Always-buy, never-sell strategy used as a concrete test vector. -/
def specBuyHold : StrategySpec :=
  { buy_conditions := [BuyCond.price_below 100], sell_conditions := []
    initial_capital := 10000, description := "buy below 100" }

/-- Concrete run exercising `C1_backtest_outputs`: two bars, an
always-true buy condition and no sell conditions, ending LONG. -/
theorem C1_backtest_outputs_witness :
    (backtest_strategy [10, 20] specBuyHold).value_history.length =
      ([10, 20] : List ℚ).length ∧
    (∀ j, j < ([10, 20] : List ℚ).length →
      (backtest_strategy [10, 20] specBuyHold).value_history.getD j 0 =
        (runUpTo specBuyHold [10, 20] (j + 1)).cash +
          ((runUpTo specBuyHold [10, 20] (j + 1)).shares : ℚ) *
            ([10, 20] : List ℚ).getD j 0) ∧
    ((simulate specBuyHold [10, 20]).in_position = true →
      (backtest_strategy [10, 20] specBuyHold).final_value =
        (simulate specBuyHold [10, 20]).cash +
          ((simulate specBuyHold [10, 20]).shares : ℚ) *
            ([10, 20] : List ℚ).getLastD 0) ∧
    (backtest_strategy [10, 20] specBuyHold).total_return =
      ((backtest_strategy [10, 20] specBuyHold).final_value -
          specBuyHold.initial_capital) / specBuyHold.initial_capital * 100 :=
  C1_backtest_outputs specBuyHold [10, 20] (by decide)

theorem stepBar_take (strat : StrategySpec) (prices : List ℚ) (i k : ℕ)
    (h : i < k) (s : SimState) :
    stepBar strat (prices.take k) i s = stepBar strat prices i s := by
  unfold stepBar
  rw [List.take_take, Nat.min_eq_left h, List.getD_eq_getElem?_getD,
    List.getD_eq_getElem?_getD (l := prices), List.getElem?_take, if_pos h]

theorem runUpTo_take (strat : StrategySpec) (prices : List ℚ) (k : ℕ) :
    ∀ m, m ≤ k + 1 → runUpTo strat (prices.take (k + 1)) m = runUpTo strat prices m := by
  intro m
  induction m with
  | zero => intro _; rfl
  | succ n ih =>
    intro hm
    rw [runUpTo_succ, runUpTo_succ, ih (by omega), stepBar_take strat prices n (k + 1) (by omega)]

/-- C2: the simulator state (cash, shares, position flag, entry price,
trade log and portfolio values) after bar `k` of the full run equals
the final state of a fresh run over just the first `k + 1` bars — no
condition evaluation or indicator at bar `k` reads data after bar `k`. -/
theorem C2_no_lookahead (strat : StrategySpec) (prices : List ℚ) (k : ℕ)
    (hk : k < prices.length) :
    simulate strat (prices.take (k + 1)) = runUpTo strat prices (k + 1) := by
  unfold simulate
  rw [List.length_take, Nat.min_eq_left (by omega)]
  exact runUpTo_take strat prices k (k + 1) le_rfl

/-- Concrete instance of `C2_no_lookahead`: three-bar series, state at
bar 1 of the full run equals the run over the two-bar prefix. -/
theorem C2_no_lookahead_witness :
    simulate specBuyHold (([10, 20, 30] : List ℚ).take 2) =
      runUpTo specBuyHold [10, 20, 30] 2 :=
  C2_no_lookahead specBuyHold [10, 20, 30] 1 (by decide)

theorem tradeStep_flat (strat : StrategySpec) (hist : List ℚ) (i : ℕ) (current : ℚ)
    (s : SimState) (h : s.in_position = false) :
    tradeStep strat hist i current s =
      match checkBuyConditions 20 hist current strat.buy_conditions with
      | some reason =>
        { cash := s.cash - ((truncQ (s.cash / current) : ℤ) : ℚ) * current
          shares := truncQ (s.cash / current)
          in_position := true
          entry_price := current
          trades := s.trades ++
            [{ barIndex := i, type := "BUY", price := current,
               shares := truncQ (s.cash / current), reason := reason }]
          value_history := s.value_history }
      | none => s := by
  unfold tradeStep
  rw [if_pos h]

theorem tradeStep_long (strat : StrategySpec) (hist : List ℚ) (i : ℕ) (current : ℚ)
    (s : SimState) (h : s.in_position = true) :
    tradeStep strat hist i current s =
      match checkSellConditions hist current s.entry_price strat.sell_conditions with
      | some reason =>
        { cash := s.cash + (s.shares : ℚ) * current
          shares := 0
          in_position := false
          entry_price := s.entry_price
          trades := s.trades ++
            [{ barIndex := i, type := "SELL", price := current,
               shares := s.shares, reason := reason }]
          value_history := s.value_history }
      | none => s := by
  unfold tradeStep
  rw [if_neg (by simp [h])]
theorem stepBar_congr_tradeStep (strat strat' : StrategySpec) (prices : List ℚ)
    (i : ℕ) (s : SimState)
    (h : tradeStep strat' (prices.take (i + 1)) i (prices.getD i 0) s =
      tradeStep strat (prices.take (i + 1)) i (prices.getD i 0) s) :
    stepBar strat' prices i s = stepBar strat prices i s := by
  simp only [stepBar]
  rw [h]

theorem C3_one_transition_per_bar (strat : StrategySpec) (prices : List ℚ)
    (i : ℕ) (s : SimState) (w : ℕ) (hist : List ℚ) (current entry : ℚ)
    (c : BuyCond) (cs : List BuyCond) (d : SellCond) (ds : List SellCond) :
    (∀ r, evalBuyCond w hist current c = some r →
      checkBuyConditions w hist current (c :: cs) = some r) ∧
    (evalBuyCond w hist current c = none →
      checkBuyConditions w hist current (c :: cs) = checkBuyConditions w hist current cs) ∧
    (∀ r, evalSellCond hist current entry d = some r →
      checkSellConditions hist current entry (d :: ds) = some r) ∧
    (evalSellCond hist current entry d = none →
      checkSellConditions hist current entry (d :: ds) =
        checkSellConditions hist current entry ds) ∧
    (s.in_position = false → ∀ strat' : StrategySpec,
      strat'.buy_conditions = strat.buy_conditions →
      stepBar strat' prices i s = stepBar strat prices i s) ∧
    (s.in_position = false →
      ((stepBar strat prices i s).in_position = false ∧
        (stepBar strat prices i s).trades = s.trades) ∨
      ((stepBar strat prices i s).in_position = true ∧
        ∃ t, t.type = "BUY" ∧ (stepBar strat prices i s).trades = s.trades ++ [t])) ∧
    (s.in_position = true → ∀ strat' : StrategySpec,
      strat'.sell_conditions = strat.sell_conditions →
      stepBar strat' prices i s = stepBar strat prices i s) ∧
    (s.in_position = true →
      ((stepBar strat prices i s).in_position = true ∧
        (stepBar strat prices i s).trades = s.trades) ∨
      ((stepBar strat prices i s).in_position = false ∧
        ∃ t, t.type = "SELL" ∧ (stepBar strat prices i s).trades = s.trades ++ [t])) := by
  refine ⟨?_, ?_, ?_, ?_, ?_, ?_, ?_, ?_⟩
  · intro r hr
    simp [checkBuyConditions, hr]
  · intro hr
    simp [checkBuyConditions, hr]
  · intro r hr
    simp [checkSellConditions, hr]
  · intro hr
    simp [checkSellConditions, hr]
  · intro h strat' hb
    apply stepBar_congr_tradeStep
    rw [tradeStep_flat strat' _ _ _ _ h, tradeStep_flat strat _ _ _ _ h, hb]
  · intro h
    simp only [stepBar, tradeStep_flat strat _ _ _ _ h]
    cases hm : checkBuyConditions 20 (prices.take (i + 1)) (prices.getD i 0)
        strat.buy_conditions with
    | none => exact Or.inl ⟨h, rfl⟩
    | some reason => exact Or.inr ⟨rfl, ⟨_, rfl, rfl⟩⟩
  · intro h strat' hs
    apply stepBar_congr_tradeStep
    rw [tradeStep_long strat' _ _ _ _ h, tradeStep_long strat _ _ _ _ h, hs]
  · intro h
    simp only [stepBar, tradeStep_long strat _ _ _ _ h]
    cases hm : checkSellConditions (prices.take (i + 1)) (prices.getD i 0)
        s.entry_price strat.sell_conditions with
    | none => exact Or.inl ⟨h, rfl⟩
    | some reason => exact Or.inr ⟨rfl, ⟨_, rfl, rfl⟩⟩

/-- Concrete instance of `C3_one_transition_per_bar`: from FLAT, one
bar performs at most one transition (and logs at most one BUY). -/
theorem C3_one_transition_per_bar_witness :
    ((stepBar specBuyHold [10] 0 (initState specBuyHold)).in_position = false ∧
      (stepBar specBuyHold [10] 0 (initState specBuyHold)).trades =
        (initState specBuyHold).trades) ∨
    ((stepBar specBuyHold [10] 0 (initState specBuyHold)).in_position = true ∧
      ∃ t, t.type = "BUY" ∧
        (stepBar specBuyHold [10] 0 (initState specBuyHold)).trades =
          (initState specBuyHold).trades ++ [t]) :=
  (C3_one_transition_per_bar specBuyHold [10] 0 (initState specBuyHold) 20 [] 0 0
    (BuyCond.dip 1) [] (SellCond.rise 1) []).2.2.2.2.2.1 rfl

/-- C5: if a buy fires at a bar whose close exceeds the available cash
(cash nonnegative), the simulator still moves to LONG with
`shares = int(cash/close) = 0`, cash unchanged, logging a zero-share
BUY; and from LONG with zero shares, a firing sell logs a zero-share
SELL with cash unchanged and returns to FLAT. -/
theorem C5_zero_share_position (strat : StrategySpec) (prices : List ℚ)
    (i : ℕ) (s : SimState) :
    (s.in_position = false →
      ∀ r, checkBuyConditions 20 (prices.take (i + 1)) (prices.getD i 0)
          strat.buy_conditions = some r →
      0 ≤ s.cash → s.cash < prices.getD i 0 →
      stepBar strat prices i s =
        { cash := s.cash, shares := 0, in_position := true
          entry_price := prices.getD i 0
          trades := s.trades ++
            [{ barIndex := i, type := "BUY", price := prices.getD i 0,
               shares := 0, reason := r }]
          value_history := s.value_history ++ [s.cash] }) ∧
    (s.in_position = true → s.shares = 0 →
      ∀ r, checkSellConditions (prices.take (i + 1)) (prices.getD i 0)
          s.entry_price strat.sell_conditions = some r →
      stepBar strat prices i s =
        { cash := s.cash, shares := 0, in_position := false
          entry_price := s.entry_price
          trades := s.trades ++
            [{ barIndex := i, type := "SELL", price := prices.getD i 0,
               shares := 0, reason := r }]
          value_history := s.value_history ++ [s.cash] }) := by
  constructor
  · intro h r hr hc hlt
    have hp : (0 : ℚ) < prices.getD i 0 := lt_of_le_of_lt hc hlt
    have hq0 : truncQ (s.cash / prices.getD i 0) = 0 := by
      unfold truncQ
      rw [if_pos (div_nonneg hc hp.le)]
      exact Int.floor_eq_zero_iff.mpr ⟨div_nonneg hc hp.le, (div_lt_one hp).mpr hlt⟩
    simp only [stepBar, tradeStep_flat strat _ _ _ _ h, hr, hq0]
    simp
  · intro h hsh r hr
    simp only [stepBar, tradeStep_long strat _ _ _ _ h, hr, hsh]
    simp

/-- Strategy too poor to afford one share at the test prices. -/
def specPoor : StrategySpec :=
  { buy_conditions := [BuyCond.price_below 100]
    sell_conditions := [SellCond.price_above 0]
    initial_capital := 5, description := "poor" }

/-- Concrete instance of `C5_zero_share_position`: capital 5, close 10,
the BUY is logged with zero shares and cash is unchanged. -/
theorem C5_zero_share_position_witness :
    stepBar specPoor [10] 0 (initState specPoor) =
      { cash := (initState specPoor).cash, shares := 0, in_position := true
        entry_price := ([10] : List ℚ).getD 0 0
        trades := (initState specPoor).trades ++
          [{ barIndex := 0, type := "BUY", price := ([10] : List ℚ).getD 0 0,
             shares := 0, reason := Reason.priceBelowLimit 10 100 }]
        value_history := (initState specPoor).value_history ++
          [(initState specPoor).cash] } :=
  (C5_zero_share_position specPoor [10] 0 (initState specPoor)).1 rfl
    (Reason.priceBelowLimit 10 100) (by decide) (by decide) (by decide)

theorem mem_gains_nonneg (prices : List ℚ) : ∀ x ∈ gains prices, 0 ≤ x := by
  intro x hx
  unfold gains at hx
  match prices, hx with
  | p :: rest, hx =>
    rcases List.mem_cons.mp hx with h0 | hmap
    · rw [h0]
    · rcases List.mem_map.mp hmap with ⟨pq, _, rfl⟩
      exact le_max_right _ _

theorem mem_losses_nonneg (prices : List ℚ) : ∀ x ∈ losses prices, 0 ≤ x := by
  intro x hx
  unfold losses at hx
  match prices, hx with
  | p :: rest, hx =>
    rcases List.mem_cons.mp hx with h0 | hmap
    · rw [h0]
    · rcases List.mem_map.mp hmap with ⟨pq, _, rfl⟩
      exact le_max_right _ _

theorem avgGain_nonneg (prices : List ℚ) (period i : ℕ) : 0 ≤ avgGain prices period i := by
  unfold avgGain
  refine div_nonneg (List.sum_nonneg ?_) (by positivity)
  intro x hx
  exact mem_gains_nonneg prices x (List.mem_of_mem_drop (List.mem_of_mem_take hx))

theorem avgLoss_nonneg (prices : List ℚ) (period i : ℕ) : 0 ≤ avgLoss prices period i := by
  unfold avgLoss
  refine div_nonneg (List.sum_nonneg ?_) (by positivity)
  intro x hx
  exact mem_losses_nonneg prices x (List.mem_of_mem_drop (List.mem_of_mem_take hx))

theorem calculate_rsi_getD (prices : List ℚ) (period i : ℕ) :
    (calculate_rsi prices period).getD i none =
      if i < prices.length then
        (if i + 1 < period then none
         else if avgLoss prices period i = 0 then
           (if avgGain prices period i = 0 then none else some 100)
         else some (100 - 100 / (1 + avgGain prices period i / avgLoss prices period i)))
      else none := by
  unfold calculate_rsi
  rw [List.getD_eq_getElem?_getD, List.getElem?_map]
  by_cases h : i < prices.length
  · rw [List.getElem?_range h]
    simp [h]
  · rw [List.getElem?_eq_none (by simpa using Nat.le_of_not_lt h)]
    simp [h]

/-- C6: wherever the RSI series is defined, its value lies in
`[0, 100]`; and at any in-range index whose trailing-`period` average
loss is zero while the average gain is positive, the RSI is exactly
`100`, not an error value. -/
theorem C6_rsi_in_range (prices : List ℚ) (period i : ℕ) :
    (∀ r, (calculate_rsi prices period).getD i none = some r →
      0 ≤ r ∧ r ≤ 100) ∧
    (i < prices.length → period ≤ i + 1 → avgLoss prices period i = 0 →
      0 < avgGain prices period i →
      (calculate_rsi prices period).getD i none = some 100) := by
  constructor
  · intro r hr
    rw [calculate_rsi_getD] at hr
    by_cases h1 : i < prices.length
    · rw [if_pos h1] at hr
      by_cases h2 : i + 1 < period
      · rw [if_pos h2] at hr
        exact absurd hr (by simp)
      · rw [if_neg h2] at hr
        by_cases h3 : avgLoss prices period i = 0
        · rw [if_pos h3] at hr
          by_cases h4 : avgGain prices period i = 0
          · rw [if_pos h4] at hr
            exact absurd hr (by simp)
          · rw [if_neg h4] at hr
            have h100 : (100 : ℚ) = r := by simpa using hr
            rw [← h100]
            norm_num
        · rw [if_neg h3] at hr
          have hval : 100 - 100 / (1 + avgGain prices period i / avgLoss prices period i) = r := by
            simpa using hr
          have hag := avgGain_nonneg prices period i
          have hal := avgLoss_nonneg prices period i
          have hal' : 0 < avgLoss prices period i := lt_of_le_of_ne hal (Ne.symm h3)
          have hrs : 0 ≤ avgGain prices period i / avgLoss prices period i :=
            div_nonneg hag hal
          have hden : (0 : ℚ) < 1 + avgGain prices period i / avgLoss prices period i := by
            linarith
          have hle : 100 / (1 + avgGain prices period i / avgLoss prices period i) ≤ 100 :=
            div_le_self (by norm_num) (by linarith)
          have hpos : 0 < 100 / (1 + avgGain prices period i / avgLoss prices period i) :=
            div_pos (by norm_num) hden
          constructor <;> linarith
    · rw [if_neg h1] at hr
      exact absurd hr (by simp)
  · intro h hper hal hag
    rw [calculate_rsi_getD]
    rw [if_pos h, if_neg (by omega), if_pos hal, if_neg (ne_of_gt hag)]

/-- Concrete instance of `C6_rsi_in_range`: a strictly rising 15-bar
series has average loss 0 and positive average gain at index 14, and
its RSI there is exactly 100. -/
theorem C6_rsi_in_range_witness :
    (calculate_rsi [1, 2, 3, 4, 5, 6, 7, 8, 9, 10, 11, 12, 13, 14, 15] 14).getD 14 none =
      some 100 :=
  (C6_rsi_in_range [1, 2, 3, 4, 5, 6, 7, 8, 9, 10, 11, 12, 13, 14, 15] 14 14).2
    (by decide) (by decide) (by norm_num [avgLoss, losses])
    (by norm_num [avgGain, gains])

/-- Lowercased character list: `strategy_text.lower()` (ASCII). -/
def lowerChars (t : String) : List Char := t.toList.map Char.toLower

/-- Python's regex `\s` whitespace class. -/
def isPySpace (c : Char) : Bool :=
  c = ' ' || c = '\t' || c = '\n' || c = '\x0d' || c = '\x0b' || c = '\x0c'

/-- Numeric value of a digit run (the integer part of `float(...)`). -/
def digitsToNat (ds : List Char) : ℕ :=
  ds.foldl (fun acc c => 10 * acc + (c.toNat - ('0').toNat)) 0

/-- Source `float()` of the matched literal `intPart ++ "." ++ fracPart`. -/
def numValue (intPart fracPart : List Char) : ℚ :=
  (digitsToNat intPart : ℚ) + (digitsToNat fracPart : ℚ) / (10 : ℚ) ^ fracPart.length

/-- Greedy match of the regex piece `(\d+\.?\d*)` at the head of `cs`:
the numeric value of the matched literal (as `float(match.group())`)
and the remaining characters; `none` when no digit starts here. -/
def parseNumber (cs : List Char) : Option (ℚ × List Char) :=
  let intPart := cs.takeWhile Char.isDigit
  let rest1 := cs.dropWhile Char.isDigit
  if intPart.isEmpty then none
  else
    match rest1 with
    | '.' :: rest2 =>
      some (numValue intPart (rest2.takeWhile Char.isDigit), rest2.dropWhile Char.isDigit)
    | _ => some ((digitsToNat intPart : ℚ), rest1)

/-- One anchored attempt, at the current position, of
`re.search(r'(\d+\.?\d*)\s*[%]|(\d+\.?\d*)\s*percent', text)` from
`extract_percentage`: a number, optional whitespace, then `%` (first
alternative) or the literal `percent` (second alternative). -/
def matchPercentHere (cs : List Char) : Option ℚ :=
  match parseNumber cs with
  | none => none
  | some (v, rest) =>
    let rest2 := rest.dropWhile isPySpace
    if rest2.head? = some '%' then some v
    else if (("percent").toList).isPrefixOf rest2 then some v
    else none

/-- Source `extract_percentage(text)` in `parse_strategy`: `re.search` scans
start positions left to right, so the first (leftmost) percentage
literal wins. -/
def extractPercentage (cs : List Char) : Option ℚ :=
  match cs with
  | [] => none
  | _ :: rest =>
    match matchPercentHere cs with
    | some v => some v
    | none => extractPercentage rest

/-- Index of the first occurrence of `needle` in `hay`
(Python `str.find`, with `none` instead of `-1`). -/
def findSub (hay needle : List Char) : Option ℕ :=
  if needle.isPrefixOf hay then some 0
  else
    match hay with
    | [] => none
    | _ :: t => (findSub t needle).map fun n => n + 1

/-- Python's `needle in hay` substring test. -/
def containsSub (hay needle : List Char) : Bool := (findSub hay needle).isSome

/-- Python's `hay.find(needle)`: first index, `-1` when absent. -/
def pyFind (hay needle : List Char) : ℤ :=
  match findSub hay needle with
  | some i => (i : ℤ)
  | none => -1

/-- Source `text.split(kw)[0]`: the characters before the first occurrence of
`kw` (the whole text when `kw` is absent). -/
def beforeFirst (cs kw : List Char) : List Char :=
  match findSub cs kw with
  | some i => cs.take i
  | none => cs

/-- Anchored attempt of the single-match tail `kw\s*(\d+)` of the
regexes `rsi.*below\s*(\d+)` / `rsi.*above\s*(\d+)`: the keyword here,
then whitespace, then a greedy non-empty digit run (the group). -/
def kwNumHere (kw cs : List Char) : Option ℚ :=
  if kw.isPrefixOf cs then
    let rest := (cs.drop kw.length).dropWhile isPySpace
    let digits := rest.takeWhile Char.isDigit
    if digits.isEmpty then none else some ((digitsToNat digits : ℚ))
  else none

/-- Backtracking of the greedy `.*` in `rsi.*kw\s*(\d+)`: the
completion positioned furthest to the right wins, and `.` (which does
not match a newline) cannot carry the scan past a `'\n'`. -/
def lastKwNum (kw : List Char) : List Char → Option ℚ
  | [] => none
  | c :: rest =>
    let tailMatch := if c = '\n' then none else lastKwNum kw rest
    match tailMatch with
    | some v => some v
    | none => kwNumHere kw (c :: rest)

/-- Source `re.search(r'rsi.*kw\s*(\d+)', text)`: the match starts at the
leftmost `rsi` occurrence that has any completion, and within that
start the greedy `.*` picks the rightmost completion. -/
def rsiKwNum (kw : List Char) : List Char → Option ℚ
  | [] => none
  | c :: rest =>
    if (("rsi").toList).isPrefixOf (c :: rest) then
      match lastKwNum kw ((c :: rest).drop 3) with
      | some v => some v
      | none => rsiKwNum kw rest
    else rsiKwNum kw rest

/-- Anchored attempt of `kw\s*[\$\\\$]?(\d+\.?\d*)` (the source's
character class holds a dollar sign and a backslash; consuming an
optional such character before the digits is equivalent to the regex's
backtracking). -/
def kwPriceHere (kw cs : List Char) : Option ℚ :=
  if kw.isPrefixOf cs then
    let rest := (cs.drop kw.length).dropWhile isPySpace
    let rest2 :=
      match rest with
      | '$' :: r => r
      | '\\' :: r => r
      | _ => rest
    match parseNumber rest2 with
    | some (v, _) => some v
    | none => none
  else none

/-- Source `re.search(r'kw\s*[\$\\\$]?(\d+\.?\d*)', text)`: leftmost match. -/
def findKwPrice (kw cs : List Char) : Option ℚ :=
  match cs with
  | [] => none
  | _ :: rest =>
    match kwPriceHere kw cs with
    | some v => some v
    | none => findKwPrice kw rest

/-- Anchored attempt of
`\$?(\d+\.?\d*)\s*(?:initial|starting|capital|money|with|invest)`:
optional dollar sign, the number (the group), whitespace, then one of
the capital keywords. -/
def capitalHere (cs : List Char) : Option ℚ :=
  let cs2 :=
    match cs with
    | '$' :: r => r
    | _ => cs
  match parseNumber cs2 with
  | none => none
  | some (v, rest) =>
    let rest2 := rest.dropWhile isPySpace
    if (("initial").toList).isPrefixOf rest2 || (("starting").toList).isPrefixOf rest2 ||
        (("capital").toList).isPrefixOf rest2 || (("money").toList).isPrefixOf rest2 ||
        (("with").toList).isPrefixOf rest2 || (("invest").toList).isPrefixOf rest2 then
      some v
    else none

/-- Leftmost match of the initial-capital regex. -/
def findCapital (cs : List Char) : Option ℚ :=
  match cs with
  | [] => none
  | _ :: rest =>
    match capitalHere cs with
    | some v => some v
    | none => findCapital rest

/-- Source `parse_strategy(strategy_text)`.  `description` keeps the original
text; all matching happens on the lowercased text.  The `if
dip_percent:` / `if rise_percent:` guards model Python float
truthiness: a parsed percentage of `0` is falsy and appends nothing
(the rsi/price branches check only the regex match object, so a value
of `0` is still appended there). -/
def parse_strategy (strategy_text : String) : StrategySpec :=
  let cs := lowerChars strategy_text
  let buy1 :=
    if containsSub cs (("dip").toList) || containsSub cs (("drop").toList) ||
        containsSub cs (("fall").toList) || containsSub cs (("decline").toList) then
      match extractPercentage cs with
      | some dip_percent =>
        if dip_percent = 0 then [] else [BuyCond.dip dip_percent]
      | none => []
    else []
  let buy2 :=
    if containsSub cs (("rsi").toList) && containsSub cs (("below").toList) &&
        decide (pyFind cs (("rsi").toList) < pyFind cs (("below").toList)) then
      match rsiKwNum (("below").toList) cs with
      | some v => [BuyCond.rsi_below v]
      | none => []
    else []
  let buy3 :=
    if containsSub cs (("below").toList) &&
        (!containsSub cs (("rsi").toList) ||
          decide (pyFind cs (("rsi").toList) > pyFind cs (("below").toList))) then
      match findKwPrice (("below").toList) cs with
      | some price => [BuyCond.price_below price]
      | none => []
    else []
  let sell1 :=
    if containsSub cs (("rise").toList) || containsSub cs (("gain").toList) ||
        containsSub cs (("increase").toList) || containsSub cs (("profit").toList) then
      match extractPercentage cs with
      | some rise_percent =>
        if rise_percent = 0 then [] else [SellCond.rise rise_percent]
      | none => []
    else []
  let sell2 :=
    if containsSub cs (("rsi").toList) && containsSub cs (("above").toList) then
      match rsiKwNum (("above").toList) cs with
      | some v => [SellCond.rsi_above v]
      | none => []
    else []
  let sell3 :=
    if containsSub cs (("above").toList) &&
        !containsSub (beforeFirst cs (("above").toList)) (("rsi").toList) then
      match findKwPrice (("above").toList) cs with
      | some price => [SellCond.price_above price]
      | none => []
    else []
  let cap :=
    match findCapital cs with
    | some v => v
    | none => 10000
  { buy_conditions := buy1 ++ buy2 ++ buy3
    sell_conditions := sell1 ++ sell2 ++ sell3
    initial_capital := cap
    description := strategy_text }

/-- C7: the documented example parse. -/
theorem C7_example_parse :
    parse_strategy "Buy when RSI below 30, sell when RSI above 70, 5000 starting capital" =
      { buy_conditions := [BuyCond.rsi_below 30]
        sell_conditions := [SellCond.rsi_above 70]
        initial_capital := 5000
        description :=
          "Buy when RSI below 30, sell when RSI above 70, 5000 starting capital" } := by
  decide

theorem runUpTo_no_buys (strat : StrategySpec) (h : strat.buy_conditions = [])
    (prices : List ℚ) (k : ℕ) :
    runUpTo strat prices k =
      { cash := strat.initial_capital, shares := 0, in_position := false
        entry_price := 0, trades := []
        value_history := List.replicate k strat.initial_capital } := by
  induction k with
  | zero => rfl
  | succ n ih =>
    rw [runUpTo_succ, ih]
    have hts := tradeStep_flat strat (prices.take (n + 1)) n (prices.getD n 0)
      { cash := strat.initial_capital, shares := 0, in_position := false
        entry_price := 0, trades := []
        value_history := List.replicate n strat.initial_capital } rfl
    rw [h] at hts
    simp only [checkBuyConditions] at hts
    simp only [stepBar, hts]
    simp [List.replicate_succ']

/-- A degenerate strategy with no buy conditions. -/
def specNoBuys : StrategySpec :=
  { buy_conditions := [], sell_conditions := [SellCond.price_above 1]
    initial_capital := 7, description := "unparseable" }

/-- C4: `parse_strategy` is total (this embedding returns a
`StrategySpec` for every input); when no buy keyword family matches the
text (none of `dip`/`drop`/`fall`/`decline`/`below` occurs), the
buy-condition list is empty, and dually for sells; and the simulator
run with an empty buy-condition list records no trades and reports a
portfolio value equal to `initial_capital` at every bar. -/
theorem C4_empty_conditions (text : String) (strat : StrategySpec) (prices : List ℚ) :
    (containsSub (lowerChars text) ['d', 'i', 'p'] = false →
     containsSub (lowerChars text) ['d', 'r', 'o', 'p'] = false →
     containsSub (lowerChars text) ['f', 'a', 'l', 'l'] = false →
     containsSub (lowerChars text) ['d', 'e', 'c', 'l', 'i', 'n', 'e'] = false →
     containsSub (lowerChars text) ['b', 'e', 'l', 'o', 'w'] = false →
     (parse_strategy text).buy_conditions = []) ∧
    (containsSub (lowerChars text) ['r', 'i', 's', 'e'] = false →
     containsSub (lowerChars text) ['g', 'a', 'i', 'n'] = false →
     containsSub (lowerChars text) ['i', 'n', 'c', 'r', 'e', 'a', 's', 'e'] = false →
     containsSub (lowerChars text) ['p', 'r', 'o', 'f', 'i', 't'] = false →
     containsSub (lowerChars text) ['a', 'b', 'o', 'v', 'e'] = false →
     (parse_strategy text).sell_conditions = []) ∧
    (strat.buy_conditions = [] →
      (simulate strat prices).trades = [] ∧
      (simulate strat prices).value_history =
        List.replicate prices.length strat.initial_capital) := by
  refine ⟨?_, ?_, ?_⟩
  · intro h1 h2 h3 h4 h5
    simp [parse_strategy, h1, h2, h3, h4, h5]
  · intro h1 h2 h3 h4 h5
    simp [parse_strategy, h1, h2, h3, h4, h5]
  · intro h
    unfold simulate
    rw [runUpTo_no_buys strat h prices prices.length]
    exact ⟨rfl, rfl⟩

/-- Concrete instance of `C4_empty_conditions`: an unparseable text
yields no buy conditions, and a no-buy-condition run on two bars logs
no trades and stays at the initial capital. -/
theorem C4_empty_conditions_witness :
    (parse_strategy "hold forever").buy_conditions = [] ∧
    (simulate specNoBuys [3, 4]).trades = [] ∧
    (simulate specNoBuys [3, 4]).value_history =
      List.replicate (([3, 4] : List ℚ).length) specNoBuys.initial_capital :=
  ⟨(C4_empty_conditions "hold forever" specNoBuys [3, 4]).1
      (by decide) (by decide) (by decide) (by decide) (by decide),
    ((C4_empty_conditions "hold forever" specNoBuys [3, 4]).2.2 rfl).1,
    ((C4_empty_conditions "hold forever" specNoBuys [3, 4]).2.2 rfl).2⟩

/-- C10: the dip percentage and the rise percentage both come from the
same `extract_percentage` call over the whole text, so whenever a
dip-family keyword and a rise-family keyword are both present and the
text's first percentage literal is `v ≠ 0`, the extracted dip buy
condition and rise sell condition both carry that same `v` (each as the
first condition of its list). -/
theorem C10_shared_percentage (text : String) (v : ℚ)
    (h1 : (containsSub (lowerChars text) ['d', 'i', 'p'] ||
        containsSub (lowerChars text) ['d', 'r', 'o', 'p'] ||
        containsSub (lowerChars text) ['f', 'a', 'l', 'l'] ||
        containsSub (lowerChars text) ['d', 'e', 'c', 'l', 'i', 'n', 'e']) = true)
    (h2 : (containsSub (lowerChars text) ['r', 'i', 's', 'e'] ||
        containsSub (lowerChars text) ['g', 'a', 'i', 'n'] ||
        containsSub (lowerChars text) ['i', 'n', 'c', 'r', 'e', 'a', 's', 'e'] ||
        containsSub (lowerChars text) ['p', 'r', 'o', 'f', 'i', 't']) = true)
    (h3 : extractPercentage (lowerChars text) = some v)
    (h4 : v ≠ 0) :
    (parse_strategy text).buy_conditions.head? = some (BuyCond.dip v) ∧
    (parse_strategy text).sell_conditions.head? = some (SellCond.rise v) := by
  constructor
  · simp [parse_strategy, h1, h3, h4]
  · simp [parse_strategy, h2, h3, h4]

/-- Concrete instance of `C10_shared_percentage`: a drop keyword with
`5%` followed by a rise keyword with `10%` yields `dip 5` and `rise 5`
— both carry the first percentage. -/
theorem C10_shared_percentage_witness :
    (parse_strategy "buy the drop 5%, sell the rise 10%").buy_conditions.head? =
      some (BuyCond.dip 5) ∧
    (parse_strategy "buy the drop 5%, sell the rise 10%").sell_conditions.head? =
      some (SellCond.rise 5) :=
  C10_shared_percentage "buy the drop 5%, sell the rise 10%" 5
    (by decide) (by decide) (by decide) (by decide)

/-- Source `prices.rolling(window=20).mean()` at index `i` (meaningful for
`i ≥ 19`; callers guard the index range). -/
def rollingMean20 (prices : List ℚ) (i : ℕ) : ℚ :=
  (((prices.drop (i + 1 - 20)).take 20).sum) / 20

/-- Numerator `Σ (x - mean)²` of the pandas rolling sample variance
(`std(ddof=1)² · 19`) over the 20-bar window ending at `i`.  Only the
comparisons `z > 2` and `z < -2` are consumed downstream, so the
embedding keeps this sum and compares squares instead of introducing
square roots. -/
def rollingVarNum20 (prices : List ℚ) (i : ℕ) : ℚ :=
  (((prices.drop (i + 1 - 20)).take 20).map
    (fun x => (x - rollingMean20 prices i) ^ 2)).sum

/-- Source `z_scores[i] > 2` in `test_mean_reversion`, where
`z = (prices - rolling_mean) / rolling_std`:  with
`s = √(varNum/19) > 0` and `d = prices[i] - mean`, `z > 2` iff
`d > 0 ∧ 19·d² > 4·varNum`.  NaN cases compare false: fewer than 20
bars, or zero std (`varNum = 0`, where `d = 0` too and `0/0` is NaN). -/
def extremeHighAt (prices : List ℚ) (i : ℕ) : Bool :=
  if 19 ≤ i ∧ i < prices.length then
    let d := prices.getD i 0 - rollingMean20 prices i
    decide (0 < rollingVarNum20 prices i ∧ 0 < d ∧
      4 * rollingVarNum20 prices i < 19 * d ^ 2)
  else false

/-- Source `z_scores[i] < -2`, mirrored from `extremeHighAt`. -/
def extremeLowAt (prices : List ℚ) (i : ℕ) : Bool :=
  if 19 ≤ i ∧ i < prices.length then
    let d := prices.getD i 0 - rollingMean20 prices i
    decide (0 < rollingVarNum20 prices i ∧ d < 0 ∧
      4 * rollingVarNum20 prices i < 19 * d ^ 2)
  else false

/-- Source `extreme_high.any()`. -/
def hasExtremeHigh (prices : List ℚ) : Bool :=
  (List.range prices.length).any (extremeHighAt prices)

/-- Source `extreme_low.any()`. -/
def hasExtremeLow (prices : List ℚ) : Bool :=
  (List.range prices.length).any (extremeLowAt prices)

/-- Source `prices.pct_change(5).shift(-5)` at index `i`: the 5-bar-forward
return `p[i+5]/p[i] - 1`, NaN (`none`) in the last five slots. -/
def futureReturn5 (prices : List ℚ) (i : ℕ) : Option ℚ :=
  if i + 5 < prices.length then some (prices.getD (i + 5) 0 / prices.getD i 0 - 1)
  else none

/-- Source `future_returns[mask].mean()`: pandas `mean` skips NaN entries and
is itself NaN (`none`) when nothing remains. -/
def bucketMean (prices : List ℚ) (mask : ℕ → Bool) : Option ℚ :=
  let vals := (List.range prices.length).filterMap
    (fun i => if mask i then futureReturn5 prices i else none)
  if vals.isEmpty then none else some (vals.sum / (vals.length : ℚ))

/-- Python-3 `round(·)` ties-to-even used by the float `round(x, n)`. -/
def roundHalfEven (q : ℚ) : ℤ :=
  if q - (⌊q⌋ : ℚ) < 1 / 2 then ⌊q⌋
  else if 1 / 2 < q - (⌊q⌋ : ℚ) then ⌊q⌋ + 1
  else if ⌊q⌋ % 2 = 0 then ⌊q⌋ else ⌊q⌋ + 1

/-- Source `round(x, 4)`. -/
def round4 (q : ℚ) : ℚ := (roundHalfEven (q * 10000) : ℚ) / 10000

/-- Source `round(x, 2)`. -/
def round2 (q : ℚ) : ℚ := (roundHalfEven (q * 100) : ℚ) / 100

/-- The dict returned by `test_mean_reversion`; `none` in the numeric
fields models a float NaN. -/
structure MeanReversionResult where
  theory : String
  reversion_after_high : Option ℚ
  reversion_after_low : Option ℚ
  shows_reversion : Bool
  interpretation : String
  makes_sense : Bool
deriving DecidableEq, Repr

/-- A Python `x < 0` comparison whose left side may be NaN. -/
def optNeg (x : Option ℚ) : Bool :=
  match x with
  | some v => decide (v < 0)
  | none => false

/-- A Python `x > 0` comparison whose left side may be NaN. -/
def optPos (x : Option ℚ) : Bool :=
  match x with
  | some v => decide (0 < v)
  | none => false

/-- Source `test_mean_reversion` on the close-price series: the
`reversion_high`/`reversion_low` locals default to the number `0` when
their bucket has no qualifying bar (`... if extreme_high.any() else 0`),
`shows_reversion = (reversion_high < 0) and (reversion_low > 0)`, and
the returned dict rounds the two bucket means to 4 places. -/
def test_mean_reversion (prices : List ℚ) : MeanReversionResult :=
  let reversion_high :=
    if hasExtremeHigh prices then bucketMean prices (extremeHighAt prices) else some 0
  let reversion_low :=
    if hasExtremeLow prices then bucketMean prices (extremeLowAt prices) else some 0
  let shows := optNeg reversion_high && optPos reversion_low
  { theory := "Mean Reversion"
    reversion_after_high := reversion_high.map round4
    reversion_after_low := reversion_low.map round4
    shows_reversion := shows
    interpretation :=
      if shows then "Stock shows mean reversion" else "No clear mean reversion"
    makes_sense := shows }

/-- C8 counterexample: on a series with no extreme z-scores at all, the
code reports the empty buckets as the numeric value `0` with the
generic "No clear mean reversion" interpretation — there is no
"insufficient samples" report anywhere in the returned dict (the claim
predicts one). -/
theorem C8_counterexample :
    test_mean_reversion [1, 2, 3] =
      { theory := "Mean Reversion"
        reversion_after_high := some 0
        reversion_after_low := some 0
        shows_reversion := false
        interpretation := "No clear mean reversion"
        makes_sense := false } := by
  have hh : hasExtremeHigh [1, 2, 3] = false := by decide
  have hl : hasExtremeLow [1, 2, 3] = false := by decide
  simp [test_mean_reversion, hh, hl, optNeg, optPos, round4, roundHalfEven]

/-- C8 (amended): whenever no bar has a 20-bar z-score above 2 and none
below −2, `shows_reversion` is `false` (the 0-defaults never make it
true), and each empty bucket is reported as the numeric value `0`
under the generic "No clear mean reversion" interpretation (not as an
"insufficient samples" report, which the code never produces). -/
theorem C8_no_extremes_flat_verdict (prices : List ℚ)
    (hh : hasExtremeHigh prices = false) (hl : hasExtremeLow prices = false) :
    (test_mean_reversion prices).shows_reversion = false ∧
    (test_mean_reversion prices).reversion_after_high = some 0 ∧
    (test_mean_reversion prices).reversion_after_low = some 0 ∧
    (test_mean_reversion prices).interpretation = "No clear mean reversion" := by
  simp [test_mean_reversion, hh, hl, optNeg, optPos, round4, roundHalfEven]

/-- Concrete instance of `C8_no_extremes_flat_verdict`. -/
theorem C8_no_extremes_flat_verdict_witness :
    (test_mean_reversion [1, 2, 3]).shows_reversion = false ∧
    (test_mean_reversion [1, 2, 3]).reversion_after_high = some 0 ∧
    (test_mean_reversion [1, 2, 3]).reversion_after_low = some 0 ∧
    (test_mean_reversion [1, 2, 3]).interpretation = "No clear mean reversion" :=
  C8_no_extremes_flat_verdict [1, 2, 3] (by decide) (by decide)

/-- The dict returned by `test_value_investing`.  The source's dict
keys `pe_ratio` / `pb_ratio` are the fields `pe_value` / `pb_value`;
`none` models Python `None` (the `round(x, 2) if x else None`
truthiness guard). -/
structure ValueResult where
  theory : String
  pe_value : Option ℚ
  pb_value : Option ℚ
  is_value_stock : Bool
  interpretation : String
  makes_sense : Bool
deriving DecidableEq, Repr

/-- Source `(self.data['Close'].iloc[-1] / self.data['Close'].iloc[0]) - 1`
(only evaluated by the source when more than 252 bars exist). -/
def annualReturn (prices : List ℚ) : ℚ :=
  prices.getLastD 0 / prices.headD 0 - 1

/-- Source `test_value_investing`: `pe`/`pb` are `self.info.get('forwardPE')`
and `self.info.get('priceToBook')`, `data` the fetched close series
(`none` when `self.data is None`).  Missing P/E returns the
`{"error": ...}` dict, embedded as `Except.error`. -/
def test_value_investing (pe pb : Option ℚ) (data : Option (List ℚ)) :
    Except String ValueResult :=
  match pe with
  | none => Except.error "P/E ratio not available"
  | some peV =>
    let is_value_stock := decide (peV < 15)
    let value_works :=
      match data with
      | some prices =>
        if 252 < prices.length then
          is_value_stock && decide ((1 : ℚ) / 10 < annualReturn prices)
        else is_value_stock
      | none => is_value_stock
    Except.ok
      { theory := "Value Investing"
        pe_value := if peV = 0 then none else some (round2 peV)
        pb_value :=
          match pb with
          | some pbV => if pbV = 0 then none else some (round2 pbV)
          | none => none
        is_value_stock := is_value_stock
        interpretation :=
          if is_value_stock then "Stock appears undervalued"
          else "Stock appears overvalued"
        makes_sense := value_works }

/-- The comprehension `[t for t in tests if "error" not in t]` in
`run_all_tests`: results carrying an `error` key are dropped, all other
results are kept in order. -/
def dropErrorResults {α : Type} (tests : List (Except String α)) : List α :=
  tests.filterMap fun t =>
    match t with
    | Except.ok r => some r
    | Except.error _ => none

/-- C9 counterexample: at exactly 252 bars the code does NOT require
the trailing return to exceed 10% (the source guard is
`len(self.data) > 252`, strict): with P/E 10 and a flat 252-bar series
(trailing return 0), `makes_sense` is still `true`, where the claim's
"at least 252 bars" reading demands `false`. -/
theorem C9_counterexample :
    test_value_investing (some 10) none (some (List.replicate 252 100)) =
      Except.ok
        { theory := "Value Investing", pe_value := some (round2 10), pb_value := none
          is_value_stock := true, interpretation := "Stock appears undervalued"
          makes_sense := true } ∧
    (List.replicate 252 (100 : ℚ)).length = 252 ∧
    annualReturn (List.replicate 252 100) ≤ 1 / 10 := by
  have hlen : (List.replicate 252 (100 : ℚ)).length = 252 := by
    rw [List.length_replicate]
  refine ⟨?_, hlen, ?_⟩
  · have h15 : decide ((10 : ℚ) < 15) = true := by norm_num
    simp only [test_value_investing, hlen, h15]
    norm_num
  · have h1 : (List.replicate 252 (100 : ℚ)).getLastD 0 = 100 := by decide
    have h2 : (List.replicate 252 (100 : ℚ)).headD 0 = 100 := by decide
    rw [annualReturn, h1, h2]
    norm_num

/-- C9 (amended): missing forward P/E makes `test_value_investing`
return the error dict, which `run_all_tests`'s filter omits from the
output set while keeping every non-error result of the other theories;
with a P/E present, the stock is classified a value stock exactly when
P/E < 15; and the `makes_sense` verdict additionally requires the
trailing return to exceed 10% exactly when MORE than 252 bars exist
(the source guard is strict `len > 252`), falling back to the
value-stock classification alone at ≤ 252 bars or with no data. -/
theorem C9_value_unavailable_and_threshold (pb : Option ℚ) (data : Option (List ℚ))
    (p : ℚ) (pre post : List (Except String ValueResult)) :
    test_value_investing none pb data = Except.error "P/E ratio not available" ∧
    dropErrorResults (pre ++ test_value_investing none pb data :: post) =
      dropErrorResults pre ++ dropErrorResults post ∧
    (∀ r, test_value_investing (some p) pb data = Except.ok r →
      r.is_value_stock = decide (p < 15) ∧
      (∀ prices, data = some prices → 252 < prices.length →
        r.makes_sense = (decide (p < 15) && decide ((1 : ℚ) / 10 < annualReturn prices))) ∧
      (∀ prices, data = some prices → prices.length ≤ 252 →
        r.makes_sense = decide (p < 15)) ∧
      (data = none → r.makes_sense = decide (p < 15))) := by
  refine ⟨rfl, ?_, ?_⟩
  · simp [dropErrorResults, List.filterMap_append, List.filterMap_cons, test_value_investing]
  · intro r hr
    simp only [test_value_investing] at hr
    injection hr with h
    subst h
    refine ⟨rfl, ?_, ?_, ?_⟩
    · intro prices hd hlen
      subst hd
      show (if 252 < prices.length then
          decide (p < 15) && decide ((1 : ℚ) / 10 < annualReturn prices)
        else decide (p < 15)) = _
      rw [if_pos hlen]
    · intro prices hd hlen
      subst hd
      show (if 252 < prices.length then
          decide (p < 15) && decide ((1 : ℚ) / 10 < annualReturn prices)
        else decide (p < 15)) = _
      rw [if_neg (by omega)]
    · intro hd
      subst hd
      rfl

/-- Concrete instance of `C9_value_unavailable_and_threshold`: with no
P/E the result is the error dict and the run filter drops it. -/
theorem C9_value_unavailable_and_threshold_witness :
    test_value_investing none none none = Except.error "P/E ratio not available" ∧
    dropErrorResults ([] ++ test_value_investing none none none :: []) =
      dropErrorResults ([] : List (Except String ValueResult)) ++
        dropErrorResults ([] : List (Except String ValueResult)) :=
  ⟨(C9_value_unavailable_and_threshold none none 0 [] []).1,
    (C9_value_unavailable_and_threshold none none 0 [] []).2.1⟩
